import Mathlib

/-!
Verification of the hospital queue server (Express + Mongoose, `src/unnamed/part_000`).

The store is modelled as a `List IPatient` in insertion order.  MongoDB
operations are modelled as follows:
* `Patient.find({status ∈ {WAITING, IN_PROGRESS}}).sort({createdAt: 1})`
  is a stable sort (insertion sort) of the filtered list by `createdAt`;
  the query has no secondary sort key, so ties keep store order.
* `findOneAndUpdate(filter, patch)` updates the first matching document.
* `findByIdAndUpdate` / `findByIdAndDelete` update/remove the document
  whose `_id` matches (ids are unique, so "first match" is faithful).
* `findOne().sort({tokenNumber: -1})` yields the maximal `tokenNumber`
  (`(lastPatient?.tokenNumber || 0)` is `0` exactly on the empty store).
Timestamps (`Date`) are modelled as `Nat`.  `sendWhatsAppMessage` catches
every Twilio error internally and always resolves to a `Bool`, so its
outcome is modelled as a `Bool` parameter of the registration operation.
-/

namespace Hospital

/-- The `type` enum of the patient schema: `['BOOKED', 'WALK_IN']`. -/
inductive PatientType where
  | BOOKED
  | WALK_IN
deriving DecidableEq

/-- The `status` enum of the patient schema: `['WAITING', 'IN_PROGRESS', 'DONE']`. -/
inductive PatientStatus where
  | WAITING
  | IN_PROGRESS
  | DONE
deriving DecidableEq

/-- A patient document (interface `IPatient` of `src/types/patient.ts`,
schema of `models/Patient`).  `createdAt` is the arrival timestamp. -/
structure IPatient where
  id : Nat
  name : String
  phone : String
  tokenNumber : Nat
  type : PatientType
  status : PatientStatus
  department : String
  createdAt : Nat
  startedAt : Option Nat
  completedAt : Option Nat
deriving DecidableEq

/-- The store: all patient documents, in insertion order. -/
abbrev Store := List IPatient

/-- The filter `{status: 'IN_PROGRESS'}` used by `findOneAndUpdate` in the
`START_CONSULTATION` handler. -/
def isIP (p : IPatient) : Bool :=
  p.status = PatientStatus.IN_PROGRESS

/-- The active filter of `getSortedQueue`: `status: { $in: ['WAITING', 'IN_PROGRESS'] }`. -/
def isActive (p : IPatient) : Bool :=
  p.status = PatientStatus.WAITING || p.status = PatientStatus.IN_PROGRESS

/-- The sort key of `.sort({ createdAt: 1 })`: ascending `createdAt`. -/
def createdLE (p q : IPatient) : Prop := p.createdAt ≤ q.createdAt

instance : DecidableRel createdLE := fun p q => Nat.decLe p.createdAt q.createdAt

instance : IsTotal IPatient createdLE := ⟨fun p q => Nat.le_total p.createdAt q.createdAt⟩

instance : IsTrans IPatient createdLE := ⟨fun _ _ _ h h' => Nat.le_trans h h'⟩

/-- The query `Patient.find({status active}).sort({createdAt: 1})`:
filter to active patients, then stable-sort by `createdAt`. -/
def activeSorted (s : Store) : List IPatient :=
  List.insertionSort createdLE (List.filter isActive s)

/-- `patients.filter((p) => p.type === 'BOOKED')` on the query result. -/
def bookedPatients (s : Store) : List IPatient :=
  (activeSorted s).filter (fun p => p.type = PatientType.BOOKED)

/-- `patients.filter((p) => p.type === 'WALK_IN')` on the query result. -/
def walkInPatients (s : Store) : List IPatient :=
  (activeSorted s).filter (fun p => p.type = PatientType.WALK_IN)

/-- One pass of the `while` loop of `getSortedQueue`, with explicit fuel so
that the recursion is structural: each iteration pushes up to 3 entries from
the front of the booked list, then up to 1 entry from the front of the
walk-in list; the loop runs while either list is nonempty.  Each iteration
consumes at least one entry, so `bs.length + ws.length` fuel is enough. -/
def mergeLoopFuel : Nat → List IPatient → List IPatient → List IPatient
  | 0, _, _ => []
  | fuel + 1, bs, ws =>
    if bs.isEmpty && ws.isEmpty then []
    else bs.take 3 ++ ws.take 1 ++ mergeLoopFuel fuel (bs.drop 3) (ws.drop 1)

/-- The merge phase of `getSortedQueue` (the `while` loop over
`bookedPatients`/`walkInPatients` with `bookedIndex`/`walkInIndex`). -/
def mergeLoop (bs ws : List IPatient) : List IPatient :=
  mergeLoopFuel (bs.length + ws.length) bs ws

/-- Modelled from the spec: the merge as the spec describes it — repeatedly
take up to 3 entries from the front of `booked`, then 1 from the front of
`walkIn`, alternating until both are exhausted; once one list is empty the
remainder of the other is appended in its own order. -/
def mergeSpec : List IPatient → List IPatient → List IPatient
  | bs, [] => bs
  | bs, w :: ws => bs.take 3 ++ w :: mergeSpec (bs.drop 3) ws

/-- `getSortedQueue()`: active patients sorted by `createdAt`, partitioned
into booked and walk-in, merged by the hybrid slotting loop. -/
def getSortedQueue (s : Store) : List IPatient :=
  mergeLoop (bookedPatients s) (walkInPatients s)

theorem mergeLoopFuel_eq_mergeSpec :
    ∀ (fuel : Nat) (bs ws : List IPatient), bs.length + ws.length ≤ fuel →
      mergeLoopFuel fuel bs ws = mergeSpec bs ws := by
  intro fuel
  induction fuel with
  | zero =>
    intro bs ws h
    have hbs : bs = [] := List.eq_nil_of_length_eq_zero (by omega)
    have hws : ws = [] := List.eq_nil_of_length_eq_zero (by omega)
    subst hbs; subst hws; rfl
  | succ n ih =>
    intro bs ws h
    cases ws with
    | nil =>
      show (if bs.isEmpty && true then [] else
        bs.take 3 ++ [] ++ mergeLoopFuel n (bs.drop 3) []) = bs
      cases bs with
      | nil => rfl
      | cons b bs' =>
        simp only [List.isEmpty_cons, Bool.false_and, if_false, List.append_nil]
        rw [ih ((b :: bs').drop 3) [] (by simp [List.length_drop] at h ⊢; omega)]
        show (b :: bs').take 3 ++ mergeSpec ((b :: bs').drop 3) [] = b :: bs'
        show (b :: bs').take 3 ++ (b :: bs').drop 3 = b :: bs'
        exact List.take_append_drop 3 (b :: bs')
    | cons w ws' =>
      show (if bs.isEmpty && false then [] else
        bs.take 3 ++ [w] ++ mergeLoopFuel n (bs.drop 3) ws') =
        bs.take 3 ++ w :: mergeSpec (bs.drop 3) ws'
      rw [Bool.and_false, if_neg (by simp)]
      rw [ih (bs.drop 3) ws' (by simp [List.length_drop] at h ⊢; omega)]
      simp

theorem mergeLoop_eq_mergeSpec (bs ws : List IPatient) :
    mergeLoop bs ws = mergeSpec bs ws :=
  mergeLoopFuel_eq_mergeSpec (bs.length + ws.length) bs ws (Nat.le_refl _)

/-- A queue item (interface `IQueueItem`): a patient document together with
the derived `position` and `estimatedWaitTime` fields. -/
structure IQueueItem where
  patient : IPatient
  position : Nat
  estimatedWaitTime : Nat
deriving DecidableEq

/-- The body of `calculateWaitTimes`' `queue.map((patient, index) => ...)`:
`position = patient.status === 'IN_PROGRESS' ? 0 : index`,
`estimatedWaitTime = position * 15`. -/
def annotateAt (index : Nat) (patient : IPatient) : IQueueItem :=
  let position := if patient.status = PatientStatus.IN_PROGRESS then 0 else index
  { patient := patient, position := position, estimatedWaitTime := position * 15 }

/-- `queue.map((patient, index) => ...)` starting at index `k`. -/
def annotateFrom (k : Nat) : List IPatient → List IQueueItem
  | [] => []
  | p :: ps => annotateAt k p :: annotateFrom (k + 1) ps

/-- `calculateWaitTimes(queue)`: attach `position` and `estimatedWaitTime`
to every entry of the queue, by index over the full sequence. -/
def calculateWaitTimes (queue : List IPatient) : List IQueueItem :=
  annotateFrom 0 queue

/-- Update the first element satisfying `p` (MongoDB `findOneAndUpdate`; also
`findByIdAndUpdate` with the predicate `_id = id`, ids being unique). -/
def updateFirst (p : IPatient → Bool) (f : IPatient → IPatient) :
    List IPatient → List IPatient
  | [] => []
  | x :: xs => if p x then f x :: xs else x :: updateFirst p f xs

/-- Step 1 of the `START_CONSULTATION` handler:
`findOneAndUpdate({status: 'IN_PROGRESS'}, {status: 'DONE', completedAt: now})`. -/
def completeCurrent (s : Store) (now : Nat) : Store :=
  updateFirst isIP
    (fun p => { p with status := PatientStatus.DONE, completedAt := some now }) s

/-- Result of the `START_CONSULTATION` handler: the final store and the
queue emitted on the `QUEUE_UPDATE` channel (always published on the
non-exceptional path, even when empty). -/
structure AdvanceResult where
  store : Store
  published : List IQueueItem
deriving DecidableEq

/-- The `START_CONSULTATION` handler (`AdvanceService`):
1. complete the current IN_PROGRESS patient, if any, stamping `completedAt`;
2. recompute the queue from the post-completion store;
3. if the queue is nonempty, set its head to IN_PROGRESS via
   `findByIdAndUpdate(queue[0]._id, {status: 'IN_PROGRESS', startedAt: now})`;
4. recompute the annotated queue and publish it. -/
def startConsultation (s : Store) (now : Nat) : AdvanceResult :=
  let s1 := completeCurrent s now
  let queue := getSortedQueue s1
  let s2 :=
    match queue with
    | [] => s1
    | next :: _ =>
      updateFirst (fun p => p.id = next.id)
        (fun p => { p with status := PatientStatus.IN_PROGRESS, startedAt := some now }) s1
  { store := s2, published := calculateWaitTimes (getSortedQueue s2) }

/-- `findOne().sort({tokenNumber: -1})` then `(lastPatient?.tokenNumber || 0)`:
the maximal token number in the store, `0` when the store is empty. -/
def maxToken (s : Store) : Nat :=
  s.foldr (fun p acc => max p.tokenNumber acc) 0

/-- Result of `POST /api/patients`: the new store, the created document, the
`whatsappSent` flag of the response, and the published queue. -/
structure RegisterResult where
  store : Store
  patient : IPatient
  whatsappSent : Bool
  published : List IQueueItem
deriving DecidableEq

/-- The `POST /api/patients` handler: assign `tokenNumber = max(existing)+1`,
save the new patient (status `WAITING`, type defaulted to `WALK_IN`,
`department` defaulted to `'General'`), invoke the WhatsApp sender — whose
outcome, a plain `Bool` (it catches all delivery errors), is the
`notifDelivered` parameter — then publish the updated queue and answer with
the document plus the `whatsappSent` flag. -/
def registerPatient (s : Store) (pname phone : String) (ty : Option PatientType)
    (now : Nat) (newId : Nat) (notifDelivered : Bool) : RegisterResult :=
  let tokenNumber := maxToken s + 1
  let patient : IPatient :=
    { id := newId, name := pname, phone := phone, tokenNumber := tokenNumber,
      type := ty.getD PatientType.WALK_IN, status := PatientStatus.WAITING,
      department := "General", createdAt := now, startedAt := none, completedAt := none }
  let s' := s ++ [patient]
  { store := s', patient := patient, whatsappSent := notifDelivered,
    published := calculateWaitTimes (getSortedQueue s') }

/-- The error taxonomy relevant to the mutation endpoints. -/
inductive ApiError where
  | NotFound
deriving DecidableEq

/-- Result of a mutation endpoint (`PUT .../status`, `DELETE ...`): the new
store, the queue published on `QUEUE_UPDATE` (`none` when nothing was
emitted), and the HTTP response body (`Except.ok` carries the JSON body,
possibly `null`). -/
structure MutationResult where
  store : Store
  published : Option (List IQueueItem)
  response : Except ApiError (Option IPatient)

/-- The `PUT /api/patients/:id/status` handler: `findByIdAndUpdate(id,
{status})` — with NO not-found check — then recompute and publish the queue,
then `res.json(patient)` where `patient` may be `null`. -/
def updateStatusOp (s : Store) (i : Nat) (st : PatientStatus) : MutationResult :=
  let s' := updateFirst (fun p => p.id = i) (fun p => { p with status := st }) s
  let found := (s.find? (fun p => p.id = i)).map (fun p => { p with status := st })
  { store := s',
    published := some (calculateWaitTimes (getSortedQueue s')),
    response := Except.ok found }

/-- The `DELETE /api/patients/:id` handler: `findByIdAndDelete(id)`; when no
document matches it answers 404 and publishes nothing; otherwise it removes
the document, recomputes and publishes the queue. -/
def deletePatientOp (s : Store) (i : Nat) : MutationResult :=
  match s.find? (fun p => p.id = i) with
  | none => { store := s, published := none, response := Except.error ApiError.NotFound }
  | some p =>
    let s' := s.eraseP (fun q => q.id = i)
    { store := s',
      published := some (calculateWaitTimes (getSortedQueue s')),
      response := Except.ok (some p) }

/-! Shared lemmas about the merge loop. -/

theorem mergeSpec_perm : ∀ (ws bs : List IPatient), List.Perm (mergeSpec bs ws) (bs ++ ws)
  | [], bs => by simp [mergeSpec]
  | w :: ws, bs => by
    show List.Perm (bs.take 3 ++ w :: mergeSpec (bs.drop 3) ws) (bs ++ w :: ws)
    have h1 : List.Perm (mergeSpec (bs.drop 3) ws) (bs.drop 3 ++ ws) :=
      mergeSpec_perm ws (bs.drop 3)
    have h2 := (h1.cons w).append_left (bs.take 3)
    have h3 : List.Perm (w :: (bs.drop 3 ++ ws)) (bs.drop 3 ++ w :: ws) :=
      List.perm_middle.symm
    have h4 := h2.trans (h3.append_left (bs.take 3))
    rwa [← List.append_assoc, List.take_append_drop] at h4

theorem mergeSpec_filter_pos (p : IPatient → Bool) :
    ∀ (ws bs : List IPatient), (∀ x ∈ bs, p x = true) → (∀ x ∈ ws, p x = false) →
      (mergeSpec bs ws).filter p = bs
  | [], bs, hb, _ => List.filter_eq_self.mpr hb
  | w :: ws, bs, hb, hw => by
    show (bs.take 3 ++ w :: mergeSpec (bs.drop 3) ws).filter p = bs
    have hbt : ∀ x ∈ bs.take 3, p x = true := fun x hx => hb x (List.mem_of_mem_take hx)
    have hbd : ∀ x ∈ bs.drop 3, p x = true := fun x hx => hb x (List.mem_of_mem_drop hx)
    have hwz : ¬ p w = true := by simp [hw w (List.mem_cons_self w ws)]
    have hws : ∀ x ∈ ws, p x = false := fun x hx => hw x (List.mem_cons_of_mem w hx)
    rw [List.filter_append, List.filter_eq_self.mpr hbt, List.filter_cons_of_neg hwz,
      mergeSpec_filter_pos p ws (bs.drop 3) hbd hws]
    exact List.take_append_drop 3 bs

theorem mergeSpec_filter_neg (p : IPatient → Bool) :
    ∀ (ws bs : List IPatient), (∀ x ∈ bs, p x = false) → (∀ x ∈ ws, p x = true) →
      (mergeSpec bs ws).filter p = ws
  | [], bs, hb, _ => by
    show bs.filter p = []
    simp only [List.filter_eq_nil_iff]
    intro a ha
    simp [hb a ha]
  | w :: ws, bs, hb, hw => by
    show (bs.take 3 ++ w :: mergeSpec (bs.drop 3) ws).filter p = w :: ws
    have hbt : (bs.take 3).filter p = [] := by
      simp only [List.filter_eq_nil_iff]
      intro a ha
      simp [hb a (List.mem_of_mem_take ha)]
    have hbd : ∀ x ∈ bs.drop 3, p x = false := fun x hx => hb x (List.mem_of_mem_drop hx)
    have hwz : p w = true := hw w (List.mem_cons_self w ws)
    have hws : ∀ x ∈ ws, p x = true := fun x hx => hw x (List.mem_cons_of_mem w hx)
    rw [List.filter_append, hbt, List.filter_cons_of_pos hwz,
      mergeSpec_filter_neg p ws (bs.drop 3) hbd hws, List.nil_append]

/-! Shared lemmas about `updateFirst`, the model of the one-document updates. -/

theorem updateFirst_of_find?_none {p : IPatient → Bool} {f : IPatient → IPatient} :
    ∀ {l : List IPatient}, l.find? p = none → updateFirst p f l = l
  | [], _ => rfl
  | x :: xs, h => by
    by_cases hp : p x
    · rw [List.find?_cons_of_pos xs hp] at h
      exact absurd h (by simp)
    · rw [List.find?_cons_of_neg xs hp] at h
      simp only [updateFirst, if_neg hp]
      rw [updateFirst_of_find?_none h]

theorem mem_updateFirst_of_find?_some {p : IPatient → Bool} {f : IPatient → IPatient} :
    ∀ {l : List IPatient} {a : IPatient}, l.find? p = some a → f a ∈ updateFirst p f l
  | [], a, h => by simp at h
  | x :: xs, a, h => by
    by_cases hp : p x
    · rw [List.find?_cons_of_pos xs hp] at h
      cases h
      simp [updateFirst, if_pos hp]
    · rw [List.find?_cons_of_neg xs hp] at h
      simp only [updateFirst, if_neg hp]
      exact List.mem_cons_of_mem x (mem_updateFirst_of_find?_some h)

theorem mem_updateFirst {p : IPatient → Bool} {f : IPatient → IPatient} :
    ∀ {l : List IPatient} {b : IPatient}, b ∈ updateFirst p f l →
      b ∈ l ∨ ∃ a, a ∈ l ∧ p a = true ∧ b = f a
  | [], b, h => by simp [updateFirst] at h
  | x :: xs, b, h => by
    by_cases hp : p x
    · rw [updateFirst, if_pos hp] at h
      rcases List.mem_cons.mp h with h | h
      · exact Or.inr ⟨x, List.mem_cons_self x xs, hp, h⟩
      · exact Or.inl (List.mem_cons_of_mem x h)
    · rw [updateFirst, if_neg hp] at h
      rcases List.mem_cons.mp h with h | h
      · exact Or.inl (h ▸ List.mem_cons_self x xs)
      · rcases mem_updateFirst h with h' | ⟨a, ha, hpa, hb⟩
        · exact Or.inl (List.mem_cons_of_mem x h')
        · exact Or.inr ⟨a, List.mem_cons_of_mem x ha, hpa, hb⟩

theorem countP_updateFirst_le_succ (q p : IPatient → Bool) (f : IPatient → IPatient) :
    ∀ l : List IPatient, (updateFirst p f l).countP q ≤ l.countP q + 1
  | [] => by simp [updateFirst]
  | x :: xs => by
    by_cases hp : p x
    · rw [updateFirst, if_pos hp]
      rw [List.countP_cons, List.countP_cons]
      have := countP_updateFirst_le_succ q p f xs
      split <;> split <;> omega
    · rw [updateFirst, if_neg hp]
      rw [List.countP_cons, List.countP_cons]
      have := countP_updateFirst_le_succ q p f xs
      omega

theorem map_updateFirst_of_invariant (p : IPatient → Bool) (f : IPatient → IPatient)
    (g : IPatient → Nat) (hg : ∀ a, g (f a) = g a) :
    ∀ l : List IPatient, (updateFirst p f l).map g = l.map g
  | [] => rfl
  | x :: xs => by
    by_cases hp : p x
    · rw [updateFirst, if_pos hp]
      simp [hg x]
    · rw [updateFirst, if_neg hp]
      simp [map_updateFirst_of_invariant p f g hg xs]

/-- The number of IN_PROGRESS entries in the store. -/
def countIP (s : Store) : Nat :=
  s.countP isIP

theorem countIP_completeCurrent (now : Nat) :
    ∀ s : Store, countIP s ≤ 1 → countIP (completeCurrent s now) = 0
  | [], _ => rfl
  | x :: xs, h => by
    by_cases hx : isIP x = true
    · have hd : countIP (x :: xs) = countIP xs + 1 := by
        rw [countIP, countIP, List.countP_cons_of_pos isIP xs hx]
      have hxs : countIP xs = 0 := by omega
      simp only [completeCurrent, updateFirst, if_pos hx]
      rw [countIP, List.countP_cons_of_neg isIP _ (by simp [isIP])]
      exact hxs
    · have hd : countIP (x :: xs) = countIP xs := by
        rw [countIP, countIP, List.countP_cons_of_neg isIP xs hx]
      simp only [completeCurrent, updateFirst, if_neg hx]
      rw [countIP, List.countP_cons_of_neg isIP _ hx]
      exact countIP_completeCurrent now xs (by omega)

theorem no_inProgress_of_countIP_zero {s : Store} (h : countIP s = 0) :
    ∀ p ∈ s, ¬ p.status = PatientStatus.IN_PROGRESS := by
  intro p hp
  have := List.countP_eq_zero.mp h p hp
  simpa [isIP] using this

/-! Shared lemmas about `maxToken`. -/

theorem le_maxToken_of_mem : ∀ {s : Store} {p : IPatient}, p ∈ s → p.tokenNumber ≤ maxToken s
  | x :: xs, p, h => by
    rcases List.mem_cons.mp h with h | h
    · subst h
      exact Nat.le_max_left _ _
    · exact Nat.le_trans (le_maxToken_of_mem h) (Nat.le_max_right _ _)

theorem maxToken_append_single (p : IPatient) :
    ∀ s : Store, maxToken (s ++ [p]) = max (maxToken s) p.tokenNumber
  | [] => by simp [maxToken]
  | x :: xs => by
    show max x.tokenNumber (maxToken (xs ++ [p])) = max (max x.tokenNumber (maxToken xs)) _
    rw [maxToken_append_single p xs]
    omega

/-! Shared lemmas about the annotator. -/

theorem annotateFrom_getElem? :
    ∀ (l : List IPatient) (k i : Nat),
      (annotateFrom k l)[i]? = l[i]?.map (annotateAt (k + i))
  | [], k, i => by simp [annotateFrom]
  | p :: ps, k, 0 => by simp [annotateFrom]
  | p :: ps, k, i + 1 => by
    simp only [annotateFrom, List.getElem?_cons_succ]
    rw [annotateFrom_getElem? ps (k + 1) i]
    have : k + 1 + i = k + (i + 1) := by omega
    rw [this]

theorem annotateFrom_map_patient :
    ∀ (l : List IPatient) (k : Nat), (annotateFrom k l).map IQueueItem.patient = l
  | [], _ => rfl
  | p :: ps, k => by
    show p :: (annotateFrom (k + 1) ps).map IQueueItem.patient = p :: ps
    rw [annotateFrom_map_patient ps (k + 1)]

/-! Shared lemmas about the partition and the sort's tie behavior. -/

/-- The ordering the spec claims for each partition list: ascending
`arrivalTime` (`createdAt`) with ties broken by ascending `sequenceNumber`
(`tokenNumber`). -/
def arrivalTokenLT (a b : IPatient) : Prop :=
  a.createdAt < b.createdAt ∨ (a.createdAt = b.createdAt ∧ a.tokenNumber < b.tokenNumber)

instance : DecidableRel arrivalTokenLT := fun a b =>
  inferInstanceAs (Decidable (a.createdAt < b.createdAt ∨
    (a.createdAt = b.createdAt ∧ a.tokenNumber < b.tokenNumber)))

theorem pairwise_arrivalTokenLT_orderedInsert (x : IPatient) :
    ∀ m : List IPatient, List.Sorted createdLE m → List.Pairwise arrivalTokenLT m →
      (∀ y ∈ m, x.tokenNumber < y.tokenNumber) →
      List.Pairwise arrivalTokenLT (List.orderedInsert createdLE x m)
  | [], _, _, _ => List.pairwise_singleton _ _
  | y :: m, hs, hp, hx => by
    rcases List.pairwise_cons.mp hp with ⟨hyall, hpm⟩
    have hsm : List.Sorted createdLE m := hs.of_cons
    have hsy : ∀ b ∈ m, createdLE y b := List.rel_of_sorted_cons hs
    by_cases h : createdLE x y
    · rw [List.orderedInsert, if_pos h]
      refine List.pairwise_cons.mpr ⟨?_, hp⟩
      intro z hz
      have hca : x.createdAt ≤ z.createdAt := by
        rcases List.mem_cons.mp hz with rfl | hz'
        · exact h
        · exact Nat.le_trans h (hsy z hz')
      rcases Nat.lt_or_ge x.createdAt z.createdAt with hlt | hge
      · exact Or.inl hlt
      · exact Or.inr ⟨Nat.le_antisymm hca hge, hx z hz⟩
    · rw [List.orderedInsert, if_neg h]
      have hyx : y.createdAt < x.createdAt := Nat.lt_of_not_le h
      refine List.pairwise_cons.mpr ⟨?_, ?_⟩
      · intro z hz
        rcases (List.mem_orderedInsert createdLE).mp hz with rfl | hz'
        · exact Or.inl hyx
        · exact hyall z hz'
      · exact pairwise_arrivalTokenLT_orderedInsert x m hsm hpm
          (fun z hz => hx z (List.mem_cons_of_mem y hz))

theorem pairwise_arrivalTokenLT_insertionSort :
    ∀ l : List IPatient, List.Pairwise (fun a b => a.tokenNumber < b.tokenNumber) l →
      List.Pairwise arrivalTokenLT (List.insertionSort createdLE l)
  | [], _ => List.Pairwise.nil
  | x :: l, hp => by
    rcases List.pairwise_cons.mp hp with ⟨hxall, hpl⟩
    show List.Pairwise arrivalTokenLT
      (List.orderedInsert createdLE x (List.insertionSort createdLE l))
    refine pairwise_arrivalTokenLT_orderedInsert x _
      (List.sorted_insertionSort createdLE l)
      (pairwise_arrivalTokenLT_insertionSort l hpl) ?_
    intro y hy
    exact hxall y ((List.mem_insertionSort createdLE).mp hy)

theorem walkIn_filter_eq (s : Store) :
    walkInPatients s =
      (activeSorted s).filter (fun p => ! decide (p.type = PatientType.BOOKED)) := by
  refine List.filter_congr ?_
  intro a _
  cases h : a.type <;> simp [h]

theorem booked_walkIn_perm_active (s : Store) :
    List.Perm (bookedPatients s ++ walkInPatients s) (List.filter isActive s) := by
  have h1 : List.Perm (bookedPatients s ++ walkInPatients s) (activeSorted s) := by
    rw [walkIn_filter_eq]
    exact List.filter_append_perm _ (activeSorted s)
  exact h1.trans (List.perm_insertionSort createdLE (List.filter isActive s))

theorem getSortedQueue_perm (s : Store) :
    List.Perm (getSortedQueue s) (List.filter isActive s) := by
  rw [getSortedQueue, mergeLoop_eq_mergeSpec]
  exact (mergeSpec_perm (walkInPatients s) (bookedPatients s)).trans
    (booked_walkIn_perm_active s)

theorem getSortedQueue_filter_booked (s : Store) :
    (getSortedQueue s).filter (fun p => p.type = PatientType.BOOKED) = bookedPatients s := by
  rw [getSortedQueue, mergeLoop_eq_mergeSpec]
  refine mergeSpec_filter_pos _ _ _ ?_ ?_
  · intro x hx
    have hx' : x ∈ (activeSorted s).filter (fun p => decide (p.type = PatientType.BOOKED)) := hx
    exact (List.mem_filter.mp hx').2
  · intro x hx
    have hx' : x ∈ (activeSorted s).filter (fun p => decide (p.type = PatientType.WALK_IN)) := hx
    have h := (List.mem_filter.mp hx').2
    simp only [decide_eq_true_eq] at h
    simp [h]

theorem getSortedQueue_filter_walkIn (s : Store) :
    (getSortedQueue s).filter (fun p => p.type = PatientType.WALK_IN) = walkInPatients s := by
  rw [getSortedQueue, mergeLoop_eq_mergeSpec]
  refine mergeSpec_filter_neg _ _ _ ?_ ?_
  · intro x hx
    have hx' : x ∈ (activeSorted s).filter (fun p => decide (p.type = PatientType.BOOKED)) := hx
    have h := (List.mem_filter.mp hx').2
    simp only [decide_eq_true_eq] at h
    simp [h]
  · intro x hx
    have hx' : x ∈ (activeSorted s).filter (fun p => decide (p.type = PatientType.WALK_IN)) := hx
    exact (List.mem_filter.mp hx').2

/-! Shared lemmas about the serving controller. -/

theorem startConsultation_store_nil {s : Store} {now : Nat}
    (h : getSortedQueue (completeCurrent s now) = []) :
    (startConsultation s now).store = completeCurrent s now := by
  simp only [startConsultation]
  rw [h]

theorem startConsultation_store_cons {s : Store} {now : Nat} {next : IPatient}
    {rest : List IPatient} (h : getSortedQueue (completeCurrent s now) = next :: rest) :
    (startConsultation s now).store =
      updateFirst (fun p => p.id = next.id)
        (fun p => { p with status := PatientStatus.IN_PROGRESS, startedAt := some now })
        (completeCurrent s now) := by
  simp only [startConsultation]
  rw [h]

theorem countIP_startConsultation (s : Store) (now : Nat) (h : countIP s ≤ 1) :
    countIP (startConsultation s now).store ≤ 1 := by
  have h0 : countIP (completeCurrent s now) = 0 := countIP_completeCurrent now s h
  cases hq : getSortedQueue (completeCurrent s now) with
  | nil =>
    rw [startConsultation_store_nil hq, h0]
    omega
  | cons next rest =>
    rw [startConsultation_store_cons hq]
    have := countP_updateFirst_le_succ isIP (fun p => p.id = next.id)
      (fun p => { p with status := PatientStatus.IN_PROGRESS, startedAt := some now })
      (completeCurrent s now)
    have h0' : (completeCurrent s now).countP isIP = 0 := h0
    rw [countIP]
    omega

/-- Iterated `START_CONSULTATION` calls at the given instants. -/
def advanceAll (s : Store) (ts : List Nat) : Store :=
  ts.foldl (fun st t => (startConsultation st t).store) s

theorem countIP_advanceAll :
    ∀ (ts : List Nat) (s : Store), countIP s ≤ 1 → countIP (advanceAll s ts) ≤ 1
  | [], _, h => h
  | t :: ts, s, h =>
    countIP_advanceAll ts (startConsultation s t).store (countIP_startConsultation s t h)

theorem inProgress_is_head (s : Store) (now : Nat) (h : countIP s ≤ 1) :
    ∀ q ∈ (startConsultation s now).store, q.status = PatientStatus.IN_PROGRESS →
      ∃ next rest, getSortedQueue (completeCurrent s now) = next :: rest ∧
        q.id = next.id ∧ q.startedAt = some now := by
  intro q hq hip
  have h0 := countIP_completeCurrent now s h
  cases hgs : getSortedQueue (completeCurrent s now) with
  | nil =>
    rw [startConsultation_store_nil hgs] at hq
    exact absurd hip (no_inProgress_of_countIP_zero h0 q hq)
  | cons next rest =>
    rw [startConsultation_store_cons hgs] at hq
    rcases mem_updateFirst hq with hq' | ⟨a, ha, hpa, hqa⟩
    · exact absurd hip (no_inProgress_of_countIP_zero h0 q hq')
    · refine ⟨next, rest, rfl, ?_, ?_⟩
      · rw [hqa]
        exact of_decide_eq_true hpa
      · rw [hqa]

theorem mergeSpec_nil_left : ∀ ws : List IPatient, mergeSpec [] ws = ws
  | [] => rfl
  | w :: ws => by
    show w :: mergeSpec [] ws = w :: ws
    rw [mergeSpec_nil_left ws]

/-! Concrete fixtures used by witnesses and counterexamples. -/

/-- A patient document with the given id, token, arrival instant, type and
status, all other fields fixed. -/
def exPatient (n tok ca : Nat) (ty : PatientType) (st : PatientStatus) : IPatient :=
  { id := n, name := "P", phone := "p", tokenNumber := tok, type := ty,
    status := st, department := "General", createdAt := ca,
    startedAt := none, completedAt := none }

/-- Scenario A of the spec: register booked B1,B2,B3,B4 then walk-ins W1,W2,
all at the same arrival instant, through the registration operation. -/
def scenarioAStore : Store :=
  let r1 := registerPatient [] "B1" "p1" (some PatientType.BOOKED) 0 1 false
  let r2 := registerPatient r1.store "B2" "p2" (some PatientType.BOOKED) 0 2 false
  let r3 := registerPatient r2.store "B3" "p3" (some PatientType.BOOKED) 0 3 false
  let r4 := registerPatient r3.store "B4" "p4" (some PatientType.BOOKED) 0 4 false
  let r5 := registerPatient r4.store "W1" "p5" (some PatientType.WALK_IN) 0 5 false
  let r6 := registerPatient r5.store "W2" "p6" (some PatientType.WALK_IN) 0 6 false
  r6.store

/-! The claims. -/

/-- C1: the Queue Composer's merge loop takes up to 3 entries from the front
of the booked list, then 1 from the front of the walk-in list, alternating
until both are exhausted; once one list is empty the remainder of the other
is appended in its own order (`mergeLoop bs [] = bs`, `mergeLoop [] ws = ws`);
and the end-to-end scenario A (booked B1..B4 then walk-ins W1,W2, same
instant) composes to [B1,B2,B3,W1,B4,W2]. -/
theorem claim_C1 :
    (∀ bs ws : List IPatient, mergeLoop bs ws = mergeSpec bs ws)
    ∧ (∀ bs : List IPatient, mergeLoop bs [] = bs)
    ∧ (∀ ws : List IPatient, mergeLoop [] ws = ws)
    ∧ (getSortedQueue scenarioAStore).map IPatient.name =
        ["B1", "B2", "B3", "W1", "B4", "W2"] := by
  refine ⟨mergeLoop_eq_mergeSpec, ?_, ?_, ?_⟩
  · intro bs
    rw [mergeLoop_eq_mergeSpec]
    rfl
  · intro ws
    rw [mergeLoop_eq_mergeSpec]
    exact mergeSpec_nil_left ws
  · rfl

/-- C2: for every store, the composer's output is a permutation of the
active entries (same length, no loss, no duplication), and filtering the
output by kind gives back exactly the booked sublist and the walk-in
sublist — both kinds retain their relative order. -/
theorem claim_C2 (s : Store) :
    List.Perm (getSortedQueue s) (s.filter isActive)
    ∧ (getSortedQueue s).length = (s.filter isActive).length
    ∧ (getSortedQueue s).filter (fun p => p.type = PatientType.BOOKED) = bookedPatients s
    ∧ (getSortedQueue s).filter (fun p => p.type = PatientType.WALK_IN) = walkInPatients s :=
  ⟨getSortedQueue_perm s, (getSortedQueue_perm s).length_eq,
    getSortedQueue_filter_booked s, getSortedQueue_filter_walkIn s⟩

/-- C5: the Wait-Time Annotator performs no reordering (stripping the
derived fields gives back the input), assigns an IN_PROGRESS entry position
0 and every other entry its 0-based index over the full sequence (not
renumbered), and sets `estimatedWaitTime = position * 15`. -/
theorem claim_C5 (queue : List IPatient) :
    (calculateWaitTimes queue).map IQueueItem.patient = queue
    ∧ ∀ (i : Nat) (p : IPatient), queue[i]? = some p →
        (calculateWaitTimes queue)[i]? = some
          { patient := p,
            position := if p.status = PatientStatus.IN_PROGRESS then 0 else i,
            estimatedWaitTime :=
              (if p.status = PatientStatus.IN_PROGRESS then 0 else i) * 15 } := by
  refine ⟨annotateFrom_map_patient queue 0, ?_⟩
  intro i p hp
  rw [calculateWaitTimes, annotateFrom_getElem? queue 0 i, hp]
  simp [annotateAt]

/-- A two-entry queue, the second entry IN_PROGRESS, for the C5 witness. -/
def qC5 : List IPatient :=
  [exPatient 1 1 0 PatientType.WALK_IN PatientStatus.WAITING,
   exPatient 2 2 0 PatientType.WALK_IN PatientStatus.IN_PROGRESS]

/-- Witness for C5 on `qC5`: annotation keeps the order, and the
IN_PROGRESS entry at index 1 is annotated with its index overridden to 0. -/
theorem claim_C5_witness :
    (calculateWaitTimes qC5).map IQueueItem.patient = qC5
    ∧ (calculateWaitTimes qC5)[1]? = some
        { patient := exPatient 2 2 0 PatientType.WALK_IN PatientStatus.IN_PROGRESS,
          position := if (exPatient 2 2 0 PatientType.WALK_IN
            PatientStatus.IN_PROGRESS).status = PatientStatus.IN_PROGRESS then 0 else 1,
          estimatedWaitTime := (if (exPatient 2 2 0 PatientType.WALK_IN
            PatientStatus.IN_PROGRESS).status = PatientStatus.IN_PROGRESS then 0
            else 1) * 15 } :=
  ⟨(claim_C5 qC5).1, (claim_C5 qC5).2 1 _ rfl⟩

/-- C9: the notification outcome never affects registration: the entry is
appended to the store with status WAITING, the updated queue is published
regardless, and the sender's outcome is reported back solely as the
`whatsappSent` boolean — store, created document and published queue are
identical whether delivery succeeded or failed. -/
theorem claim_C9 (s : Store) (n ph : String) (ty : Option PatientType)
    (now newId : Nat) (delivered : Bool) :
    (registerPatient s n ph ty now newId delivered).store =
      s ++ [(registerPatient s n ph ty now newId delivered).patient]
    ∧ (registerPatient s n ph ty now newId delivered).patient.status = PatientStatus.WAITING
    ∧ (registerPatient s n ph ty now newId delivered).whatsappSent = delivered
    ∧ (registerPatient s n ph ty now newId delivered).published =
        calculateWaitTimes (getSortedQueue ((registerPatient s n ph ty now newId delivered).store))
    ∧ (registerPatient s n ph ty now newId false).store =
        (registerPatient s n ph ty now newId true).store
    ∧ (registerPatient s n ph ty now newId false).patient =
        (registerPatient s n ph ty now newId true).patient
    ∧ (registerPatient s n ph ty now newId false).published =
        (registerPatient s n ph ty now newId true).published :=
  ⟨rfl, rfl, rfl, rfl, rfl, rfl, rfl⟩

/-- C10: when the input sequence contains two or more IN_PROGRESS entries,
`calculateWaitTimes` gives every IN_PROGRESS entry position 0 and wait 0,
while every other entry still receives its 0-based index in the full
sequence and wait `index * 15`. -/
theorem claim_C10 (queue : List IPatient) (_hmulti : 2 ≤ countIP queue) :
    ∀ (i : Nat) (p : IPatient), queue[i]? = some p →
      (p.status = PatientStatus.IN_PROGRESS →
        (calculateWaitTimes queue)[i]? = some
          { patient := p, position := 0, estimatedWaitTime := 0 })
      ∧ (¬ p.status = PatientStatus.IN_PROGRESS →
        (calculateWaitTimes queue)[i]? = some
          { patient := p, position := i, estimatedWaitTime := i * 15 }) := by
  intro i p hp
  constructor
  · intro hip
    rw [calculateWaitTimes, annotateFrom_getElem? queue 0 i, hp]
    simp [annotateAt, hip]
  · intro hnip
    rw [calculateWaitTimes, annotateFrom_getElem? queue 0 i, hp]
    simp [annotateAt, hnip]

/-- A three-entry queue whose first two entries are IN_PROGRESS (singleton
invariant violated), for the C10 witness. -/
def qC10 : List IPatient :=
  [exPatient 1 1 0 PatientType.BOOKED PatientStatus.IN_PROGRESS,
   exPatient 2 2 0 PatientType.WALK_IN PatientStatus.IN_PROGRESS,
   exPatient 3 3 0 PatientType.WALK_IN PatientStatus.WAITING]

/-- Witness for C10 on `qC10`: the second IN_PROGRESS entry (index 1) also
gets position 0 and wait 0, and the WAITING entry at index 2 keeps index 2
and wait 30. -/
theorem claim_C10_witness :
    2 ≤ countIP qC10
    ∧ (calculateWaitTimes qC10)[1]? = some
        { patient := exPatient 2 2 0 PatientType.WALK_IN PatientStatus.IN_PROGRESS,
          position := 0, estimatedWaitTime := 0 }
    ∧ (calculateWaitTimes qC10)[2]? = some
        { patient := exPatient 3 3 0 PatientType.WALK_IN PatientStatus.WAITING,
          position := 2, estimatedWaitTime := 30 } :=
  ⟨by decide,
   (claim_C10 qC10 (by decide) 1 _ rfl).1 rfl,
   (claim_C10 qC10 (by decide) 2 _ rfl).2 (by decide)⟩

/-- C3: the `START_CONSULTATION` handler (AdvanceService): when no entry is
IN_PROGRESS, the completion step is a no-op (not an error); the first entry
found IN_PROGRESS transitions to DONE with `completedAt` stamped; the queue
is recomputed from the post-completion store; when it is empty no entry
becomes IN_PROGRESS; when it is nonempty an entry with the head's id
transitions to IN_PROGRESS with `startedAt` stamped; and the annotated
queue of the final store is always published, even when empty. -/
theorem claim_C3 (s : Store) (now : Nat) :
    (s.find? isIP = none → completeCurrent s now = s)
    ∧ (∀ a : IPatient, s.find? isIP = some a →
        { a with status := PatientStatus.DONE, completedAt := some now } ∈
          completeCurrent s now)
    ∧ (getSortedQueue (completeCurrent s now) = [] →
        (startConsultation s now).store = completeCurrent s now)
    ∧ (∀ (next : IPatient) (rest : List IPatient),
        getSortedQueue (completeCurrent s now) = next :: rest →
        ∃ q ∈ (startConsultation s now).store,
          q.id = next.id ∧ q.status = PatientStatus.IN_PROGRESS ∧
            q.startedAt = some now)
    ∧ (startConsultation s now).published =
        calculateWaitTimes (getSortedQueue ((startConsultation s now).store)) := by
  refine ⟨?_, ?_, ?_, ?_, rfl⟩
  · intro h
    exact updateFirst_of_find?_none h
  · intro a ha
    exact mem_updateFirst_of_find?_some ha
  · intro h
    exact startConsultation_store_nil h
  · intro next rest h
    rw [startConsultation_store_cons h]
    have hmem : next ∈ completeCurrent s now := by
      have h1 : next ∈ getSortedQueue (completeCurrent s now) := by
        rw [h]; exact List.mem_cons_self next rest
      have h2 := (getSortedQueue_perm (completeCurrent s now)).mem_iff.mp h1
      exact List.mem_of_mem_filter h2
    have hsome : ((completeCurrent s now).find? (fun p => p.id = next.id)).isSome :=
      List.find?_isSome.mpr ⟨next, hmem, by simp⟩
    rcases Option.isSome_iff_exists.mp hsome with ⟨a, ha⟩
    refine ⟨{ a with status := PatientStatus.IN_PROGRESS, startedAt := some now },
      mem_updateFirst_of_find?_some ha, ?_, rfl, rfl⟩
    have := List.find?_some ha
    simpa using this

/-- A store with one IN_PROGRESS entry and one WAITING entry, used by the
C3 and C4 witnesses. -/
def sC3 : Store :=
  [exPatient 1 1 0 PatientType.WALK_IN PatientStatus.IN_PROGRESS,
   exPatient 2 2 1 PatientType.WALK_IN PatientStatus.WAITING]

/-- Witness for C3 on `sC3` at instant 7: the IN_PROGRESS entry is completed
with `completedAt = 7`, and an entry with the recomputed head's id becomes
IN_PROGRESS with `startedAt = 7`. -/
theorem claim_C3_witness :
    ({ exPatient 1 1 0 PatientType.WALK_IN PatientStatus.IN_PROGRESS with
        status := PatientStatus.DONE, completedAt := some 7 } ∈ completeCurrent sC3 7)
    ∧ ∃ q ∈ (startConsultation sC3 7).store,
        q.id = (exPatient 2 2 1 PatientType.WALK_IN PatientStatus.WAITING).id ∧
          q.status = PatientStatus.IN_PROGRESS ∧ q.startedAt = some 7 :=
  ⟨(claim_C3 sC3 7).2.1 _ rfl,
   (claim_C3 sC3 7).2.2.2.1 (exPatient 2 2 1 PatientType.WALK_IN PatientStatus.WAITING)
     [] (by decide)⟩

/-- C4: from any store with at most one IN_PROGRESS entry, any sequence of
AdvanceService calls leaves at most one IN_PROGRESS entry; and after one
call, any IN_PROGRESS entry in the resulting store is the head (by id) of
the composed ordering computed from the post-completion state, with
`startedAt` stamped at that call. -/
theorem claim_C4 (s : Store) (h : countIP s ≤ 1) :
    (∀ ts : List Nat, countIP (advanceAll s ts) ≤ 1)
    ∧ (∀ now : Nat, ∀ q ∈ (startConsultation s now).store,
        q.status = PatientStatus.IN_PROGRESS →
        ∃ next rest, getSortedQueue (completeCurrent s now) = next :: rest ∧
          q.id = next.id ∧ q.startedAt = some now) :=
  ⟨fun ts => countIP_advanceAll ts s h, fun now => inProgress_is_head s now h⟩

/-- Witness for C4 on `sC3`: the invariant holds after three consecutive
calls, and the theorem's head property applies to the concrete entry that
is IN_PROGRESS after one call at instant 7. -/
theorem claim_C4_witness :
    countIP sC3 ≤ 1
    ∧ countIP (advanceAll sC3 [7, 8, 9]) ≤ 1
    ∧ ∃ next rest, getSortedQueue (completeCurrent sC3 7) = next :: rest ∧
        ({ exPatient 2 2 1 PatientType.WALK_IN PatientStatus.WAITING with
            status := PatientStatus.IN_PROGRESS, startedAt := some 7 }).id = next.id ∧
        ({ exPatient 2 2 1 PatientType.WALK_IN PatientStatus.WAITING with
            status := PatientStatus.IN_PROGRESS, startedAt := some 7 }).startedAt = some 7 :=
  ⟨by decide,
   (claim_C4 sC3 (by decide)).1 [7, 8, 9],
   (claim_C4 sC3 (by decide)).2 7 _ (by decide) rfl⟩

/-- C6 counterexample store: two active booked entries with the same
arrival instant whose store order has descending token numbers. -/
def sC6 : Store :=
  [exPatient 1 2 5 PatientType.BOOKED PatientStatus.WAITING,
   exPatient 2 1 5 PatientType.BOOKED PatientStatus.WAITING]

/-- Counterexample to C6 as stated: the composer's booked sublist for `sC6`
is NOT ordered by ascending `arrivalTime` with ties broken by ascending
`sequenceNumber` — the two entries tie on arrival and keep store order,
token 2 before token 1.  (`.sort({createdAt: 1})` has no secondary key.) -/
theorem claim_C6_counterexample :
    ¬ List.Pairwise arrivalTokenLT (bookedPatients sC6) := by
  decide

/-- C6 (amended): each partition list is ordered by ascending `arrivalTime`;
no `sequenceNumber` tie-break is applied — ties keep store order — so the
tie-break by ascending `sequenceNumber` holds exactly when the store order
itself has ascending token numbers (as registration-created stores do). -/
theorem claim_C6_amended (s : Store) :
    List.Pairwise createdLE (bookedPatients s)
    ∧ List.Pairwise createdLE (walkInPatients s)
    ∧ (List.Pairwise (fun a b => a.tokenNumber < b.tokenNumber) s →
        List.Pairwise arrivalTokenLT (bookedPatients s) ∧
          List.Pairwise arrivalTokenLT (walkInPatients s)) := by
  have hsorted : List.Pairwise createdLE (activeSorted s) :=
    List.sorted_insertionSort createdLE (List.filter isActive s)
  refine ⟨hsorted.sublist (List.filter_sublist _), hsorted.sublist (List.filter_sublist _), ?_⟩
  intro htok
  have hact : List.Pairwise (fun a b => a.tokenNumber < b.tokenNumber)
      (List.filter isActive s) := htok.sublist (List.filter_sublist _)
  have hlex : List.Pairwise arrivalTokenLT (activeSorted s) :=
    pairwise_arrivalTokenLT_insertionSort (List.filter isActive s) hact
  exact ⟨hlex.sublist (List.filter_sublist _), hlex.sublist (List.filter_sublist _)⟩

/-- A store with ascending token numbers for the C6 witness. -/
def sC6w : Store :=
  [exPatient 1 1 5 PatientType.BOOKED PatientStatus.WAITING,
   exPatient 2 2 5 PatientType.WALK_IN PatientStatus.WAITING,
   exPatient 3 3 4 PatientType.BOOKED PatientStatus.WAITING]

/-- Witness for the amended C6 on `sC6w`: both partition lists are sorted by
arrival, and — the store order being token-ascending — ties are broken by
ascending token number. -/
theorem claim_C6_amended_witness :
    List.Pairwise createdLE (bookedPatients sC6w)
    ∧ List.Pairwise arrivalTokenLT (bookedPatients sC6w)
    ∧ List.Pairwise arrivalTokenLT (walkInPatients sC6w) :=
  ⟨(claim_C6_amended sC6w).1,
   ((claim_C6_amended sC6w).2.2 (by decide)).1,
   ((claim_C6_amended sC6w).2.2 (by decide)).2⟩

/-- A one-entry store for the C7 counterexample and witness. -/
def sC7 : Store := [exPatient 1 1 0 PatientType.WALK_IN PatientStatus.WAITING]

/-- Counterexample to C7 as stated: for the status-edit operation with an
unresolving id (99), the handler does NOT surface a typed failure — it
answers `200` with a null body — and it DOES publish a queue snapshot. -/
theorem claim_C7_counterexample :
    (updateStatusOp sC7 99 PatientStatus.DONE).response = Except.ok none
    ∧ (updateStatusOp sC7 99 PatientStatus.DONE).published ≠ none := by
  constructor
  · rfl
  · intro h
    simp [updateStatusOp] at h

/-- C7 (amended): when the target id does not resolve, the delete operation
surfaces a typed NotFound failure with no store change and no publish; the
status-edit operation, however, performs no not-found check: it leaves the
store unchanged but still publishes the (unchanged) queue snapshot and
answers the caller with a null body instead of a typed failure. -/
theorem claim_C7_amended (s : Store) (i : Nat) (st : PatientStatus)
    (h : s.find? (fun p => p.id = i) = none) :
    ((deletePatientOp s i).store = s
      ∧ (deletePatientOp s i).published = none
      ∧ (deletePatientOp s i).response = Except.error ApiError.NotFound)
    ∧ ((updateStatusOp s i st).store = s
      ∧ (updateStatusOp s i st).published = some (calculateWaitTimes (getSortedQueue s))
      ∧ (updateStatusOp s i st).response = Except.ok none) := by
  have hstore : updateFirst (fun p => p.id = i) (fun p => { p with status := st }) s = s :=
    updateFirst_of_find?_none h
  have hdel : deletePatientOp s i =
      { store := s, published := none, response := Except.error ApiError.NotFound } := by
    unfold deletePatientOp
    rw [h]
  have hupd : updateStatusOp s i st =
      { store := s, published := some (calculateWaitTimes (getSortedQueue s)),
        response := Except.ok none } := by
    unfold updateStatusOp
    rw [hstore, h]
    rfl
  rw [hdel, hupd]
  exact ⟨⟨rfl, rfl, rfl⟩, rfl, rfl, rfl⟩

/-- Witness for the amended C7 on `sC7` with the unresolving id 99. -/
theorem claim_C7_amended_witness :
    ((deletePatientOp sC7 99).store = sC7
      ∧ (deletePatientOp sC7 99).published = none
      ∧ (deletePatientOp sC7 99).response = Except.error ApiError.NotFound)
    ∧ ((updateStatusOp sC7 99 PatientStatus.DONE).store = sC7
      ∧ (updateStatusOp sC7 99 PatientStatus.DONE).published =
          some (calculateWaitTimes (getSortedQueue sC7))
      ∧ (updateStatusOp sC7 99 PatientStatus.DONE).response = Except.ok none) :=
  claim_C7_amended sC7 99 PatientStatus.DONE rfl

/-- The registration/deletion sequence refuting C8's "never reused":
register A (token 1), register B (token 2), delete B, register C. -/
def regA : RegisterResult := registerPatient [] "A" "1" none 0 1 false

/-- Second registration of the C8 counterexample sequence. -/
def regB : RegisterResult := registerPatient regA.store "B" "2" none 1 2 false

/-- Deletion of B (id 2) in the C8 counterexample sequence. -/
def delB : MutationResult := deletePatientOp regB.store 2

/-- Third registration of the C8 counterexample sequence, after B's deletion. -/
def regC : RegisterResult := registerPatient delB.store "C" "3" none 2 3 false

/-- Counterexample to C8 as stated: B receives token 2; after B is deleted,
C also receives token 2 — the token is reused after a deletion, and token
assignment is not strictly increasing with creation order across deletions. -/
theorem claim_C8_counterexample :
    regB.patient.tokenNumber = 2
    ∧ delB.store = regA.store
    ∧ regC.patient.tokenNumber = 2 := by
  refine ⟨rfl, ?_, rfl⟩
  decide

/-- C8 (amended): each registration assigns `tokenNumber = max(existing)+1`,
strictly greater than every token currently stored (hence unique in the
store and strictly increasing across consecutive registrations), and no
status-edit or AdvanceService call ever reassigns a token; but after the
highest-token entry is deleted a token value can be reused. -/
theorem claim_C8_amended (s : Store) (n ph : String) (ty : Option PatientType)
    (now newId : Nat) (b : Bool) :
    (registerPatient s n ph ty now newId b).patient.tokenNumber = maxToken s + 1
    ∧ (∀ p ∈ s, p.tokenNumber < (registerPatient s n ph ty now newId b).patient.tokenNumber)
    ∧ (∀ (n2 ph2 : String) (ty2 : Option PatientType) (now2 newId2 : Nat) (b2 : Bool),
        (registerPatient (registerPatient s n ph ty now newId b).store
            n2 ph2 ty2 now2 newId2 b2).patient.tokenNumber =
          (registerPatient s n ph ty now newId b).patient.tokenNumber + 1)
    ∧ (∀ (i : Nat) (st : PatientStatus),
        ((updateStatusOp s i st).store).map IPatient.tokenNumber =
          s.map IPatient.tokenNumber)
    ∧ (∀ t : Nat, ((startConsultation s t).store).map IPatient.tokenNumber =
        s.map IPatient.tokenNumber) := by
  refine ⟨rfl, ?_, ?_, ?_, ?_⟩
  · intro p hp
    have := le_maxToken_of_mem hp
    show p.tokenNumber < maxToken s + 1
    omega
  · intro n2 ph2 ty2 now2 newId2 b2
    show maxToken (s ++ [(registerPatient s n ph ty now newId b).patient]) + 1 =
      (maxToken s + 1) + 1
    rw [maxToken_append_single]
    show max (maxToken s) (maxToken s + 1) + 1 = (maxToken s + 1) + 1
    omega
  · intro i st
    exact map_updateFirst_of_invariant (fun p => p.id = i)
      (fun p => { p with status := st }) IPatient.tokenNumber (fun a => rfl) s
  · intro t
    have hcomplete : ((completeCurrent s t).map IPatient.tokenNumber) =
        s.map IPatient.tokenNumber :=
      map_updateFirst_of_invariant isIP
        (fun p => { p with status := PatientStatus.DONE, completedAt := some t })
        IPatient.tokenNumber (fun a => rfl) s
    cases hq : getSortedQueue (completeCurrent s t) with
    | nil =>
      rw [startConsultation_store_nil hq]
      exact hcomplete
    | cons next rest =>
      rw [startConsultation_store_cons hq]
      rw [map_updateFirst_of_invariant (fun p => p.id = next.id)
        (fun p => { p with status := PatientStatus.IN_PROGRESS, startedAt := some t })
        IPatient.tokenNumber (fun a => rfl) (completeCurrent s t)]
      exact hcomplete

/-- Witness for the amended C8 on a concrete one-entry store with token 5:
the new token is 6, strictly above the stored token 5, the next
registration gets 7, and neither a status edit nor an AdvanceService call
changes any stored token. -/
theorem claim_C8_amended_witness :
    (registerPatient [exPatient 1 5 0 PatientType.WALK_IN PatientStatus.WAITING]
        "D" "4" none 3 9 false).patient.tokenNumber =
      maxToken [exPatient 1 5 0 PatientType.WALK_IN PatientStatus.WAITING] + 1
    ∧ (exPatient 1 5 0 PatientType.WALK_IN PatientStatus.WAITING).tokenNumber <
        (registerPatient [exPatient 1 5 0 PatientType.WALK_IN PatientStatus.WAITING]
          "D" "4" none 3 9 false).patient.tokenNumber
    ∧ ((updateStatusOp [exPatient 1 5 0 PatientType.WALK_IN PatientStatus.WAITING]
          1 PatientStatus.DONE).store).map IPatient.tokenNumber =
        [exPatient 1 5 0 PatientType.WALK_IN PatientStatus.WAITING].map
          IPatient.tokenNumber :=
  ⟨(claim_C8_amended [exPatient 1 5 0 PatientType.WALK_IN PatientStatus.WAITING]
      "D" "4" none 3 9 false).1,
   (claim_C8_amended [exPatient 1 5 0 PatientType.WALK_IN PatientStatus.WAITING]
      "D" "4" none 3 9 false).2.1 _ (List.mem_cons_self _ _),
   (claim_C8_amended [exPatient 1 5 0 PatientType.WALK_IN PatientStatus.WAITING]
      "D" "4" none 3 9 false).2.2.2.1 1 PatientStatus.DONE⟩

end Hospital
